import Mathlib

/-!
# govendor: the per-dependency install procedure, the run loop and the `.env` writer

A shallow embedding of `main.go`.  The program is a sequence of calls into the
operating system (`os.Chdir`, `os.MkdirAll`, `os.Stat`, `exec.Command(...).Run`,
`ioutil.WriteFile`).  The operating system is a parameter of the model: a
`Runtime σ` answers every call from a state `σ` and returns the next state, so
a statement quantified over every `Runtime` and every state holds for every
behaviour of the environment.  Every call is recorded, with its outcome, in a
trace of `Event`s; the properties below are statements about that trace and
about the error value returned.
-/

namespace Govendor

/-! ## Data model -/

/-- The `dependency` struct (main.go, lines 16-21). -/
structure dependency where
  Vcs : String
  Repo : String
  Rev : String
  Path : String
deriving DecidableEq, Repr

/-- A non-nil Go `error` value, reduced to the three observations the program
makes on it: its dynamic type (printed by `fmt` for a surplus argument), its
`Error()` text (printed by `%v`) and the answer of `os.IsNotExist`. -/
structure GoError where
  typ : String
  msg : String
  notExist : Bool
deriving DecidableEq, Repr

/-- One observable action of the process, with the outcome the environment gave. -/
inductive Event where
  | log (line : String)
  | println (line : String)
  | chdir (dir : String) (err : Option GoError)
  | mkdirAll (path : String) (perm : Nat) (err : Option GoError)
  | stat (name : String) (err : Option GoError)
  | run (argv : List String) (err : Option GoError)
  | combinedOutput (argv : List String) (out : String) (err : Option GoError)
  | writeFile (name : String) (data : String) (perm : Nat) (err : Option GoError)
  | osExit (code : Nat)
  | crash (msg : String)
deriving DecidableEq, Repr

/-- The environment: the system calls and the two pure standard-library
helpers (`path.Join`, `strings.TrimSpace`) that `main.go` uses.  None of them
is code of the repository, so each is a parameter. -/
structure Runtime (σ : Type) where
  chdir : String → σ → Option GoError × σ
  mkdirAll : String → Nat → σ → Option GoError × σ
  stat : String → σ → Option GoError × σ
  run : List String → σ → Option GoError × σ
  combinedOutput : List String → σ → (String × Option GoError) × σ
  writeFile : String → String → Nat → σ → Option GoError × σ
  pathJoin : List String → String
  trimSpace : String → String

/-- The state of the process: the environment and the trace of what was done so far. -/
structure Sys (σ : Type) where
  world : σ
  trace : List Event

variable {σ : Type}

/-! ## Primitive steps: perform the call, record it -/

/-- The calls `log.Printf` and `log.Println`: one line on standard error. -/
def logPrint (line : String) (w : Sys σ) : Sys σ :=
  ⟨w.world, w.trace ++ [Event.log line]⟩

/-- The call `fmt.Println`: one line on standard output. -/
def fmtPrintln (line : String) (w : Sys σ) : Sys σ :=
  ⟨w.world, w.trace ++ [Event.println line]⟩

/-- The calls `log.Fatal` and `log.Fatalf`: print the line, then `os.Exit(1)`. -/
def logFatal (line : String) (w : Sys σ) : Sys σ :=
  ⟨w.world, w.trace ++ [Event.log line, Event.osExit 1]⟩

/-- The call `os.Chdir(dir)`. -/
def osChdir (rt : Runtime σ) (dir : String) (w : Sys σ) : Option GoError × Sys σ :=
  let r := rt.chdir dir w.world
  (r.1, ⟨r.2, w.trace ++ [Event.chdir dir r.1]⟩)

/-- The call `os.MkdirAll(path, perm)`. -/
def osMkdirAll (rt : Runtime σ) (path : String) (perm : Nat) (w : Sys σ) :
    Option GoError × Sys σ :=
  let r := rt.mkdirAll path perm w.world
  (r.1, ⟨r.2, w.trace ++ [Event.mkdirAll path perm r.1]⟩)

/-- The call `os.Stat(name)`, of which the program keeps only the error. -/
def osStat (rt : Runtime σ) (name : String) (w : Sys σ) : Option GoError × Sys σ :=
  let r := rt.stat name w.world
  (r.1, ⟨r.2, w.trace ++ [Event.stat name r.1]⟩)

/-- The call `exec.Command(argv...).Run()`. -/
def execRun (rt : Runtime σ) (argv : List String) (w : Sys σ) : Option GoError × Sys σ :=
  let r := rt.run argv w.world
  (r.1, ⟨r.2, w.trace ++ [Event.run argv r.1]⟩)

/-- The call `exec.Command(argv...).CombinedOutput()`. -/
def execCombinedOutput (rt : Runtime σ) (argv : List String) (w : Sys σ) :
    (String × Option GoError) × Sys σ :=
  let r := rt.combinedOutput argv w.world
  (r.1, ⟨r.2, w.trace ++ [Event.combinedOutput argv r.1.1 r.1.2]⟩)

/-- The call `ioutil.WriteFile(name, data, perm)`. -/
def ioWriteFile (rt : Runtime σ) (name data : String) (perm : Nat) (w : Sys σ) :
    Option GoError × Sys σ :=
  let r := rt.writeFile name data perm w.world
  (r.1, ⟨r.2, w.trace ++ [Event.writeFile name data perm r.1]⟩)

/-- The predicate `os.IsNotExist(err)`; false on the nil error. -/
def isNotExist : Option GoError → Bool
  | some e => e.notExist
  | none => false

/-- What `fmt` appends for an error argument that no verb of the format
consumes, as in `fmt.Errorf("Failed to fetch latest revisions", err)`. -/
def fmtExtra (e : GoError) : String :=
  "%!(EXTRA " ++ e.typ ++ "=" ++ e.msg ++ ")"

/-! ## The command lines -/

/-- The command `git rev-parse HEAD`. -/
def gitRevParse : List String := ["git", "rev-parse", "HEAD"]

/-- The command `git reset --quiet --hard rev`. -/
def gitReset (rev : String) : List String := ["git", "reset", "--quiet", "--hard", rev]

/-- The command `git fetch`. -/
def gitFetch : List String := ["git", "fetch"]

/-- The command `git clone --quiet repo dir`. -/
def gitClone (repo dir : String) : List String := ["git", "clone", "--quiet", repo, dir]

/-- The command `hg clone --quiet --updaterev rev repo dir`. -/
def hgClone (d : dependency) : List String :=
  ["hg", "clone", "--quiet", "--updaterev", d.Rev, d.Repo, d.Path]

/-! ## The program -/

/-- The method `dependency.bootstrap` (main.go, lines 71-78). -/
def bootstrap (rt : Runtime σ) (d : dependency) (srcPath : String) (w : Sys σ) :
    Option String × Sys σ :=
  let w := logPrint ("bootstrapping " ++ srcPath) w
  let path := rt.pathJoin [srcPath, d.Path]
  match execRun rt (gitClone d.Repo path) w with
  | (some err, w) => (some ("Failed to clone git " ++ d.Path ++ ": " ++ err.msg), w)
  | (none, w) => (none, w)

/-- The method `dependency.install` (main.go, lines 23-69).  The result is the
returned `error` (`none` for nil) and the state of the process at the return.
Both calls of `bootstrap` drop its result, as lines 36 and 44 do. -/
def install (rt : Runtime σ) (d : dependency) (srcPath : String) (w : Sys σ) :
    Option String × Sys σ :=
  let w := logPrint ("Installing " ++ d.Repo) w
  match osChdir rt srcPath w with
  | (some _, w) => (some "Failed to navigate to srcPath", w)
  | (none, w) =>
  match osMkdirAll rt d.Path 0o755 w with
  | (some _, w) => (some ("Failed to mkdir " ++ d.Path), w)
  | (none, w) =>
  if d.Vcs = "git" then
    let gitDir := rt.pathJoin [srcPath, d.Path, ".git"]
    match osStat rt gitDir w with
    | (err, w) =>
    let w := if isNotExist err then (bootstrap rt d srcPath w).2 else w
    match osChdir rt d.Path w with
    | (some _, w) => (some ("Failed to change to " ++ d.Path), w)
    | (none, w) =>
    match execCombinedOutput rt gitRevParse w with
    | ((out, err), w) =>
    let w := if err.isSome then (bootstrap rt d srcPath w).2 else w
    if rt.trimSpace out = d.Rev then
      (none, logPrint (d.Repo ++ " already installed") w)
    else
    match execRun rt (gitReset d.Rev) w with
    | (none, w) => (none, w)
    | (some _, w) =>
      match execRun rt gitFetch w with
      | (some err, w) => (some ("Failed to fetch latest revisions" ++ fmtExtra err), w)
      | (none, w) =>
        match execRun rt (gitReset d.Rev) w with
        | (some err, w) =>
          (some ("Failed to change to git rev " ++ d.Rev ++ ": " ++ err.msg), w)
        | (none, w) => (none, w)
  else if d.Vcs = "hg" then
    match execRun rt (hgClone d) w with
    | (some err, w) => (some ("Failed to clone hg " ++ d.Path ++ ": " ++ err.msg), w)
    | (none, w) => (none, w)
  else
    (none, w)

/-- How the run loop of `main` ended: it ran to the end of the manifest,
`log.Fatalf` ended the process, or the Go runtime ended it on a nil pointer. -/
inductive LoopEnd where
  | completed
  | fatal
  | crashed
deriving DecidableEq, Repr

/-- A nil pointer dereference: the Go runtime panics and the process ends.
This is what `dep.install(srcPath)` does on a nil `*dependency`, at the read
of `d.Repo` on line 24, before anything is logged. -/
def nilDeref (w : Sys σ) : Sys σ :=
  ⟨w.world, w.trace ++ [Event.crash "invalid memory address or nil pointer dereference"]⟩

/-- The loop of `main` over the manifest (lines 104-108).  The manifest is a
`[]*dependency`: an entry is a dependency or, for a JSON `null`, the nil
pointer (`none`), on which the call of `install` panics.  The loop goes on to
the next entry only after an `install` that returned nil. -/
def installDeps (rt : Runtime σ) (srcPath : String) :
    List (Option dependency) → Sys σ → LoopEnd × Sys σ
  | [], w => (LoopEnd.completed, w)
  | none :: _, w => (LoopEnd.crashed, nilDeref w)
  | some dep :: rest, w =>
    match install rt dep srcPath w with
    | (some err, w) =>
      (LoopEnd.fatal, logFatal ("Failed to install " ++ dep.Repo ++ ": " ++ err) w)
    | (none, w) => installDeps rt srcPath rest w

/-- The line printed by line 109 of `main`. -/
def confirmation : String := "Dependencies written into _vendor/src"

/-- The run loop of `main` with the line after it (lines 103-109): the
confirmation is printed when the loop ran to the end of the manifest. -/
def mainLoop (rt : Runtime σ) (srcPath : String) (deps : List (Option dependency))
    (w : Sys σ) : LoopEnd × Sys σ :=
  match installDeps rt srcPath deps w with
  | (LoopEnd.completed, w) => (LoopEnd.completed, fmtPrintln confirmation w)
  | (LoopEnd.fatal, w) => (LoopEnd.fatal, w)
  | (LoopEnd.crashed, w) => (LoopEnd.crashed, w)

/-- The content `writeEnv` writes (line 144). -/
def envLine : String := "export GOPATH=$(pwd)/_vendor:$GOPATH"

/-- The variable `envTips` (lines 132-134). -/
def envTips : String :=
  "Written \"export GOPATH=$(pwd)/_vendor:$GOPATH\" into .env\n" ++
  "You can autoload .env file with \"https://github.com/kennethreitz/autoenv\"\n"

/-- The function `writeEnv` (lines 136-150).  The flag is true when
`log.Fatal` ended the process. -/
def writeEnv (rt : Runtime σ) (w : Sys σ) : Bool × Sys σ :=
  match osStat rt ".env" w with
  | (none, w) => (false, logPrint ".env exists. Skipping..." w)
  | (some err, w) =>
    if isNotExist (some err) then
      match ioWriteFile rt ".env" envLine 0o755 w with
      | (some _, w) => (true, logFatal "Failed to write .env file" w)
      | (none, w) => (false, fmtPrintln envTips w)
    else
      (false, w)

/-! ## Observations on a run -/

/-- The error returned by `install` called in environment state `s`. -/
def installResult (rt : Runtime σ) (d : dependency) (srcPath : String) (s : σ) : Option String :=
  (install rt d srcPath ⟨s, []⟩).1

/-- Everything that call of `install` did, in order. -/
def installTrace (rt : Runtime σ) (d : dependency) (srcPath : String) (s : σ) : List Event :=
  (install rt d srcPath ⟨s, []⟩).2.trace

/-- The command line of an event that runs an external command. -/
def cmdOf : Event → Option (List String)
  | Event.run argv _ => some argv
  | Event.combinedOutput argv _ _ => some argv
  | _ => none

/-- The external commands of a trace, in the order they were run. -/
def commands (t : List Event) : List (List String) := t.filterMap cmdOf

/-- The outcome of an event that is a `Run` of the command `argv`. -/
def runOutcome (argv : List String) : Event → Option (Option GoError)
  | Event.run a r => if a = argv then some r else none
  | _ => none

/-- The outcomes of the successive `Run`s of the command `argv` in a trace. -/
def outcomes (argv : List String) (t : List Event) : List (Option GoError) :=
  t.filterMap (runOutcome argv)

/-- Substring test on messages: `sub` occurs in `s`. -/
def contains (s sub : String) : Prop := sub.data <:+: s.data

instance (s sub : String) : Decidable (contains s sub) := by
  unfold contains; infer_instance

/-! ## The runs of `install`, path by path -/

/-- The events of one call of `bootstrap` whose clone had outcome `c`. -/
def bootEvents (rt : Runtime σ) (d : dependency) (srcPath : String) (c : Option GoError) :
    List Event :=
  [Event.log ("bootstrapping " ++ srcPath),
   Event.run (gitClone d.Repo (rt.pathJoin [srcPath, d.Path])) c]

/-- The events up to the `switch`, when both guards pass. -/
def entryEvents (d : dependency) (srcPath : String) : List Event :=
  [Event.log ("Installing " ++ d.Repo), Event.chdir srcPath none,
   Event.mkdirAll d.Path 0o755 none]

/-- The events of the git case up to line 37: `Stat` answered `st`, and the
bootstrap that follows a not-exist answer had clone outcome `c1`. -/
def statEvents (rt : Runtime σ) (d : dependency) (srcPath : String)
    (st c1 : Option GoError) : List Event :=
  entryEvents d srcPath ++ Event.stat (rt.pathJoin [srcPath, d.Path, ".git"]) st ::
    (if isNotExist st then bootEvents rt d srcPath c1 else [])

/-- The events of the git case up to line 45: the revision read gave `out`
and `rev`, and the bootstrap that follows a failed read had clone outcome `c2`. -/
def headEvents (rt : Runtime σ) (d : dependency) (srcPath : String)
    (st c1 : Option GoError) (out : String) (rev c2 : Option GoError) : List Event :=
  statEvents rt d srcPath st c1 ++ Event.chdir d.Path none ::
    Event.combinedOutput gitRevParse out rev ::
    (if rev.isSome then bootEvents rt d srcPath c2 else [])

/-- The control-flow paths of `install`: the returned error and the events of
the call, one constructor for each way through lines 23-69. -/
inductive InstallRun (rt : Runtime σ) (d : dependency) (srcPath : String) :
    Option String → List Event → Prop where
  | chdirFailed (e : GoError) :
      InstallRun rt d srcPath (some "Failed to navigate to srcPath")
        [Event.log ("Installing " ++ d.Repo), Event.chdir srcPath (some e)]
  | mkdirFailed (e : GoError) :
      InstallRun rt d srcPath (some ("Failed to mkdir " ++ d.Path))
        [Event.log ("Installing " ++ d.Repo), Event.chdir srcPath none,
         Event.mkdirAll d.Path 0o755 (some e)]
  | otherVcs (hg : d.Vcs ≠ "git") (hh : d.Vcs ≠ "hg") :
      InstallRun rt d srcPath none (entryEvents d srcPath)
  | hgCloned (hg : d.Vcs ≠ "git") (hh : d.Vcs = "hg") :
      InstallRun rt d srcPath none (entryEvents d srcPath ++ [Event.run (hgClone d) none])
  | hgFailed (hg : d.Vcs ≠ "git") (hh : d.Vcs = "hg") (e : GoError) :
      InstallRun rt d srcPath (some ("Failed to clone hg " ++ d.Path ++ ": " ++ e.msg))
        (entryEvents d srcPath ++ [Event.run (hgClone d) (some e)])
  | enterFailed (hg : d.Vcs = "git") (st c1 : Option GoError) (e : GoError) :
      InstallRun rt d srcPath (some ("Failed to change to " ++ d.Path))
        (statEvents rt d srcPath st c1 ++ [Event.chdir d.Path (some e)])
  | upToDate (hg : d.Vcs = "git") (st c1 : Option GoError) (out : String)
      (rev c2 : Option GoError) (ht : rt.trimSpace out = d.Rev) :
      InstallRun rt d srcPath none
        (headEvents rt d srcPath st c1 out rev c2 ++ [Event.log (d.Repo ++ " already installed")])
  | resetDone (hg : d.Vcs = "git") (st c1 : Option GoError) (out : String)
      (rev c2 : Option GoError) (ht : rt.trimSpace out ≠ d.Rev) :
      InstallRun rt d srcPath none
        (headEvents rt d srcPath st c1 out rev c2 ++ [Event.run (gitReset d.Rev) none])
  | fetchFailed (hg : d.Vcs = "git") (st c1 : Option GoError) (out : String)
      (rev c2 : Option GoError) (ht : rt.trimSpace out ≠ d.Rev) (e1 e2 : GoError) :
      InstallRun rt d srcPath (some ("Failed to fetch latest revisions" ++ fmtExtra e2))
        (headEvents rt d srcPath st c1 out rev c2 ++
          [Event.run (gitReset d.Rev) (some e1), Event.run gitFetch (some e2)])
  | retryDone (hg : d.Vcs = "git") (st c1 : Option GoError) (out : String)
      (rev c2 : Option GoError) (ht : rt.trimSpace out ≠ d.Rev) (e1 : GoError) :
      InstallRun rt d srcPath none
        (headEvents rt d srcPath st c1 out rev c2 ++
          [Event.run (gitReset d.Rev) (some e1), Event.run gitFetch none,
           Event.run (gitReset d.Rev) none])
  | retryFailed (hg : d.Vcs = "git") (st c1 : Option GoError) (out : String)
      (rev c2 : Option GoError) (ht : rt.trimSpace out ≠ d.Rev) (e1 e3 : GoError) :
      InstallRun rt d srcPath (some ("Failed to change to git rev " ++ d.Rev ++ ": " ++ e3.msg))
        (headEvents rt d srcPath st c1 out rev c2 ++
          [Event.run (gitReset d.Rev) (some e1), Event.run gitFetch none,
           Event.run (gitReset d.Rev) (some e3)])


/-! ## Example environments

A small machine on which the model is run in the examples: the content of
`.env` and whether `git fetch` has run. -/

/-- The state of the example machine. -/
structure Machine where
  env : Option String
  fetched : Bool
deriving DecidableEq, Repr

/-- The example machine at the start: no `.env`, nothing fetched. -/
def m0 : Machine := ⟨none, false⟩

/-- ASCII whitespace trimming, the example stand-in for `strings.TrimSpace`. -/
def trimAscii (s : String) : String :=
  String.mk (((s.data.dropWhile Char.isWhitespace).reverse.dropWhile Char.isWhitespace).reverse)

/-- The error `os.Stat` gives for a missing file. -/
def errNotExist : GoError := ⟨"*fs.PathError", "no such file or directory", true⟩

/-- The error of a command that exits with a non-zero status. -/
def errExit : GoError := ⟨"*exec.ExitError", "exit status 128", false⟩

/-- The error of a refused system call. -/
def errDenied : GoError := ⟨"*fs.PathError", "permission denied", false⟩

/-- An environment in which every call succeeds: every path except a missing
`.env` exists, commands print nothing, `WriteFile` stores `.env`. -/
def quiet : Runtime Machine where
  chdir := fun _ m => (none, m)
  mkdirAll := fun _ _ m => (none, m)
  stat := fun name m =>
    if name = ".env" ∧ m.env = none then (some errNotExist, m) else (none, m)
  run := fun argv m => if argv = gitFetch then (none, ⟨m.env, true⟩) else (none, m)
  combinedOutput := fun _ m => (("", none), m)
  writeFile := fun name data _ m =>
    if name = ".env" then (none, ⟨some data, m.fetched⟩) else (none, m)
  pathJoin := fun xs => "/".intercalate xs
  trimSpace := trimAscii

/-- A git dependency pinned at `deadbeef`. -/
def depA : dependency := ⟨"git", "https://example/a", "deadbeef", "a"⟩

/-- The checkout already sits at `deadbeef`. -/
def atHead : Runtime Machine :=
  { quiet with combinedOutput := fun _ m => (("deadbeef\n", none), m) }

/-- The checkout sits at another revision; `deadbeef` is available locally. -/
def behind : Runtime Machine :=
  { quiet with combinedOutput := fun _ m => (("0badcafe\n", none), m) }

/-- A dependency of a kind the `switch` has no case for. -/
def depSvn : dependency := ⟨"svn", "svn://example/s", "42", "s"⟩

/-- A mercurial dependency. -/
def depHg : dependency := ⟨"hg", "https://example/h", "tip", "h"⟩

/-- A git dependency whose manifest entry has no `rev` key: the field is the
zero value of `string`. -/
def depNoRev : dependency := ⟨"git", "https://example/a", "", "a"⟩

/-- The vendor directory cannot be entered. -/
def noSrc : Runtime Machine :=
  { quiet with chdir := fun _ m => (some errNotExist, m) }

/-- The checkout sits at another revision and `deadbeef` is not known
locally: the reset fails until `git fetch` has run. -/
def stale : Runtime Machine :=
  { quiet with
    combinedOutput := fun _ m => (("0badcafe\n", none), m)
    run := fun argv m =>
      if argv = gitFetch then (none, ⟨m.env, true⟩)
      else if m.fetched then (none, m) else (some errExit, m) }

/-- As `stale`, but the remote cannot be reached: every command that is run
with `Run` fails. -/
def offline : Runtime Machine :=
  { quiet with
    combinedOutput := fun _ m => (("0badcafe\n", none), m)
    run := fun _ m => (some errExit, m) }

/-- A fresh vendor directory: nothing exists at `/v/a/.git`, and the checkout
is at `deadbeef` once cloned. -/
def fresh : Runtime Machine :=
  { quiet with
    stat := fun _ m => (some errNotExist, m)
    combinedOutput := fun _ m => (("deadbeef\n", none), m) }

/-- A fresh vendor directory with no network: nothing exists at `/v/a/.git`,
every `Run` fails, and the revision read fails in the empty directory. -/
def unreachable : Runtime Machine :=
  { quiet with
    stat := fun _ m => (some errNotExist, m)
    run := fun _ m => (some errExit, m)
    combinedOutput := fun _ m => (("fatal: not a git repository\n", some errExit), m) }

/-- The error of `exec` when the executable is not installed. -/
def errNotFound : GoError :=
  ⟨"*exec.Error", "exec: \"git\": executable file not found in $PATH", false⟩

/-- A machine without `git`: no command starts, so there is no output. -/
def noGit : Runtime Machine :=
  { quiet with
    stat := fun _ m => (some errNotExist, m)
    run := fun _ m => (some errNotFound, m)
    combinedOutput := fun _ m => (("", some errNotFound), m) }

/-- The current directory is read-only: `WriteFile` is refused and changes nothing. -/
def readOnly : Runtime Machine :=
  { quiet with writeFile := fun _ _ _ m => (some errDenied, m) }

/-- The environment state in which `writeEnv` returns; the process trace starts empty. -/
def envAfter (rt : Runtime σ) (s : σ) : σ := (writeEnv rt ⟨s, []⟩).2.world

/-- Whether `writeEnv` ended the process with `log.Fatal`. -/
def envFatal (rt : Runtime σ) (s : σ) : Bool := (writeEnv rt ⟨s, []⟩).1

/-- The runtime's `Stat` and `WriteFile` act on a file `.env` whose content
`content` reads off the state: `Stat` changes nothing and does not report a
file that exists as missing, and a `WriteFile` that returns nil has stored its
data.  Nothing is assumed about a `WriteFile` that fails. -/
structure FileStore (rt : Runtime σ) (content : σ → Option String) : Prop where
  stat_state : ∀ s, (rt.stat ".env" s).2 = s
  stat_found : ∀ s, (content s).isSome = true → isNotExist (rt.stat ".env" s).1 = false
  write_done : ∀ s data perm, (rt.writeFile ".env" data perm s).1 = none →
    content (rt.writeFile ".env" data perm s).2 = some data

/-- A git repository whose `HEAD` cannot be read although `deadbeef` is in its
object store: the revision read fails, the clone into the non-empty directory
fails, and the reset succeeds. -/
def brokenHead : Runtime Machine :=
  { quiet with
    run := fun argv m =>
      if argv = gitReset "deadbeef" then (none, m) else (some errExit, m)
    combinedOutput := fun _ m => (("fatal: ambiguous argument HEAD\n", some errExit), m) }

/-- The first twelve characters of a message; they tell the error messages of
`install` apart. -/
def head12 (s : String) : List Char := s.data.take 12

/-- The reference the run loop is compared with, after the words of the
claim: `install` called on every dependency of `ds` in turn, each call in the
state the one before left, whatever the calls return.  The result lists the
returned errors in order and gives the state after the last call. -/
def installInOrder (rt : Runtime σ) (srcPath : String) :
    List dependency → Sys σ → List (Option String) × Sys σ
  | [], w => ([], w)
  | d :: ds, w =>
    match install rt d srcPath w with
    | (r, w) =>
      match installInOrder rt srcPath ds w with
      | (rs, w) => (r :: rs, w)

/-- Everything the run loop and the line after it did, started in environment
state `s`. -/
def loopTrace (rt : Runtime σ) (srcPath : String) (deps : List (Option dependency)) (s : σ) :
    List Event :=
  (mainLoop rt srcPath deps ⟨s, []⟩).2.trace

/-- How that run of the loop ended. -/
def loopEnd (rt : Runtime σ) (srcPath : String) (deps : List (Option dependency)) (s : σ) :
    LoopEnd :=
  (mainLoop rt srcPath deps ⟨s, []⟩).1

/-- A second git dependency. -/
def depB : dependency := ⟨"git", "https://example/b", "deadbeef", "b"⟩

/-- The clone of a mercurial dependency fails; everything else succeeds. -/
def hgDown : Runtime Machine :=
  { atHead with
    run := fun argv m => if argv.head? = some "hg" then (some errExit, m) else (none, m) }

/-- A regular file stands where the directory of the dependency should be:
`MkdirAll` fails. -/
def blocked : Runtime Machine :=
  { quiet with mkdirAll := fun _ _ m => (some ⟨"*fs.PathError", "not a directory", false⟩, m) }

/-- Prefix test on messages: `s` begins with `pre`. -/
def startsWith (s pre : String) : Prop := pre.data <+: s.data

/-- A git dependency whose directory is named like the text of a reset error. -/
def depOdd : dependency :=
  ⟨"git", "https://example/a", "deadbeef", "git rev deadbeef: exit status 128"⟩

/-- The vendor directory can be entered, the directory of the dependency cannot. -/
def noEntry : Runtime Machine :=
  { quiet with chdir := fun dir m => if dir = "/v" then (none, m) else (some errDenied, m) }

/-- The checkout sits at another revision and the remote does not have
`deadbeef` either: the fetch succeeds and both resets fail. -/
def retryFails : Runtime Machine :=
  { quiet with
    combinedOutput := fun _ m => (("0badcafe\n", none), m)
    run := fun argv m => if argv = gitFetch then (none, m) else (some errExit, m) }

/-! ## Theorems -/

theorem osChdir_trace {rt : Runtime σ} {dir : String} {w w1 : Sys σ} {r : Option GoError}
    (h : osChdir rt dir w = (r, w1)) : w1.trace = w.trace ++ [Event.chdir dir r] := by
  cases h; rfl

/-- The call `os.MkdirAll` adds its event to the trace. -/
theorem osMkdirAll_trace {rt : Runtime σ} {path : String} {perm : Nat} {w w1 : Sys σ}
    {r : Option GoError} (h : osMkdirAll rt path perm w = (r, w1)) :
    w1.trace = w.trace ++ [Event.mkdirAll path perm r] := by
  cases h; rfl

/-- The call `os.Stat` adds its event to the trace. -/
theorem osStat_trace {rt : Runtime σ} {name : String} {w w1 : Sys σ} {r : Option GoError}
    (h : osStat rt name w = (r, w1)) : w1.trace = w.trace ++ [Event.stat name r] := by
  cases h; rfl

/-- A `Run` adds its event to the trace. -/
theorem execRun_trace {rt : Runtime σ} {argv : List String} {w w1 : Sys σ} {r : Option GoError}
    (h : execRun rt argv w = (r, w1)) : w1.trace = w.trace ++ [Event.run argv r] := by
  cases h; rfl

/-- A `CombinedOutput` adds its event to the trace. -/
theorem execCombinedOutput_trace {rt : Runtime σ} {argv : List String} {w w1 : Sys σ}
    {out : String} {r : Option GoError} (h : execCombinedOutput rt argv w = ((out, r), w1)) :
    w1.trace = w.trace ++ [Event.combinedOutput argv out r] := by
  simp only [execCombinedOutput, Prod.mk.injEq] at h
  obtain ⟨h1, h2⟩ := h
  subst h2
  simp [h1]

/-- A call of `bootstrap` adds its log line and its clone to the trace. -/
theorem bootstrap_trace (rt : Runtime σ) (d : dependency) (srcPath : String) (w : Sys σ) :
    ∃ c, (bootstrap rt d srcPath w).2.trace = w.trace ++ bootEvents rt d srcPath c := by
  rcases h : execRun rt (gitClone d.Repo (rt.pathJoin [srcPath, d.Path]))
    (logPrint ("bootstrapping " ++ srcPath) w) with ⟨r, w1⟩
  have e := execRun_trace h
  refine ⟨r, ?_⟩
  simp only [bootstrap, h]
  cases r <;> simp [e, logPrint, bootEvents]

/-- A conditional call of `bootstrap` adds the events of a bootstrap or nothing. -/
theorem maybeBoot_trace (rt : Runtime σ) (d : dependency) (srcPath : String) (b : Bool)
    (w : Sys σ) :
    ∃ c, (if b = true then (bootstrap rt d srcPath w).2 else w).trace =
      w.trace ++ (if b = true then bootEvents rt d srcPath c else []) := by
  cases b
  · exact ⟨none, by simp⟩
  · obtain ⟨c, h⟩ := bootstrap_trace rt d srcPath w
    exact ⟨c, by simp [h]⟩

/-- Every call of `install`, from any state of the process, follows one of the
paths of `InstallRun` and adds the events of that path to the trace. -/
theorem install_run (rt : Runtime σ) (d : dependency) (srcPath : String) (w : Sys σ) :
    ∃ ev, (install rt d srcPath w).2.trace = w.trace ++ ev ∧
      InstallRun rt d srcPath (install rt d srcPath w).1 ev := by
  simp only [install]
  generalize h1 : osChdir rt srcPath (logPrint ("Installing " ++ d.Repo) w) = xh1
  obtain ⟨r1, w1⟩ := xh1
  have t1 := osChdir_trace h1
  simp only [logPrint] at t1
  cases r1 with
  | some e1 => exact ⟨_, by simp [t1], InstallRun.chdirFailed e1⟩
  | none =>
  simp only []
  generalize h2 : osMkdirAll rt d.Path 493 w1 = xh2
  obtain ⟨r2, w2⟩ := xh2
  have t2 := osMkdirAll_trace h2
  cases r2 with
  | some e2 => exact ⟨_, by simp [t1, t2], InstallRun.mkdirFailed e2⟩
  | none =>
  simp only []
  by_cases hv : d.Vcs = "git"
  · simp only [hv, if_true]
    generalize h3 : osStat rt (rt.pathJoin [srcPath, d.Path, ".git"]) w2 = xh3
    obtain ⟨st, w3⟩ := xh3
    have t3 := osStat_trace h3
    obtain ⟨c1, t3b⟩ := maybeBoot_trace rt d srcPath (isNotExist st) w3
    simp only []
    generalize (if isNotExist st = true then (bootstrap rt d srcPath w3).2 else w3) = w3b at t3b ⊢
    generalize h4 : osChdir rt d.Path w3b = xh4
    obtain ⟨r4, w4⟩ := xh4
    have t4 := osChdir_trace h4
    cases r4 with
    | some e4 =>
      exact ⟨_, by simp [t1, t2, t3, t3b, t4, statEvents, entryEvents],
        InstallRun.enterFailed hv st c1 e4⟩
    | none =>
    simp only []
    generalize h5 : execCombinedOutput rt gitRevParse w4 = xh5
    obtain ⟨⟨out, rev⟩, w5⟩ := xh5
    have t5 := execCombinedOutput_trace h5
    obtain ⟨c2, t5b⟩ := maybeBoot_trace rt d srcPath rev.isSome w5
    simp only []
    generalize (if rev.isSome = true then (bootstrap rt d srcPath w5).2 else w5) = w5b at t5b ⊢
    have th : w5b.trace = w.trace ++ headEvents rt d srcPath st c1 out rev c2 := by
      simp [t1, t2, t3, t3b, t4, t5, t5b, headEvents, statEvents, entryEvents]
    by_cases ht : rt.trimSpace out = d.Rev
    · simp only [ht, if_true]
      exact ⟨_, by simp [logPrint, th], InstallRun.upToDate hv st c1 out rev c2 ht⟩
    · simp only [ht, if_false]
      generalize h6 : execRun rt (gitReset d.Rev) w5b = xh6
      obtain ⟨r6, w6⟩ := xh6
      have t6 := execRun_trace h6
      cases r6 with
      | none => exact ⟨_, by simp [th, t6], InstallRun.resetDone hv st c1 out rev c2 ht⟩
      | some e6 =>
      simp only []
      generalize h7 : execRun rt gitFetch w6 = xh7
      obtain ⟨r7, w7⟩ := xh7
      have t7 := execRun_trace h7
      cases r7 with
      | some e7 =>
        exact ⟨_, by simp [th, t6, t7], InstallRun.fetchFailed hv st c1 out rev c2 ht e6 e7⟩
      | none =>
      simp only []
      generalize h8 : execRun rt (gitReset d.Rev) w7 = xh8
      obtain ⟨r8, w8⟩ := xh8
      have t8 := execRun_trace h8
      cases r8 with
      | some e8 =>
        exact ⟨_, by simp [th, t6, t7, t8], InstallRun.retryFailed hv st c1 out rev c2 ht e6 e8⟩
      | none =>
        exact ⟨_, by simp [th, t6, t7, t8], InstallRun.retryDone hv st c1 out rev c2 ht e6⟩
  · simp only [hv, if_false]
    by_cases hh : d.Vcs = "hg"
    · simp only [hh, if_true]
      generalize h3 : execRun rt (hgClone d) w2 = xh3
      obtain ⟨r3, w3⟩ := xh3
      have t3 := execRun_trace h3
      cases r3 with
      | some e3 =>
        exact ⟨_, by simp [t1, t2, t3, entryEvents], InstallRun.hgFailed hv hh e3⟩
      | none => exact ⟨_, by simp [t1, t2, t3, entryEvents], InstallRun.hgCloned hv hh⟩
    · simp only [hh, if_false]
      exact ⟨_, by simp [t1, t2, entryEvents], InstallRun.otherVcs hv hh⟩


/-- Every call of `install` follows one of the paths of `InstallRun`. -/
theorem installRun_at (rt : Runtime σ) (d : dependency) (srcPath : String) (s : σ) :
    InstallRun rt d srcPath (installResult rt d srcPath s) (installTrace rt d srcPath s) := by
  obtain ⟨ev, h1, h2⟩ := install_run rt d srcPath ⟨s, []⟩
  simp only [List.nil_append] at h1
  simpa [installResult, installTrace, h1] using h2

/-- C1. Git fast path: when the `.git` directory is found (`os.Stat` returns
nil) and the `git rev-parse HEAD` that `install` runs succeeds with an output
whose trimmed text is `d.Rev` (which is only run after both changes of
directory and the `MkdirAll` succeeded), `install` returns nil and the external
commands it ran are exactly `[git rev-parse HEAD]`. -/
theorem install_git_fast_path (rt : Runtime σ) (d : dependency) (srcPath : String) (s : σ)
    (out : String) (_hvcs : d.Vcs = "git")
    (hcd : Event.chdir srcPath none ∈ installTrace rt d srcPath s)
    (hmk : Event.mkdirAll d.Path 0o755 none ∈ installTrace rt d srcPath s)
    (hgit : Event.stat (rt.pathJoin [srcPath, d.Path, ".git"]) none ∈ installTrace rt d srcPath s)
    (hrev : Event.combinedOutput gitRevParse out none ∈ installTrace rt d srcPath s)
    (htrim : rt.trimSpace out = d.Rev) :
    installResult rt d srcPath s = none ∧
      commands (installTrace rt d srcPath s) = [gitRevParse] := by
  have h := installRun_at rt d srcPath s
  generalize installResult rt d srcPath s = res at h ⊢
  generalize installTrace rt d srcPath s = tr at h hcd hmk hgit hrev ⊢
  cases h <;>
    simp [entryEvents, statEvents, headEvents, bootEvents, commands, cmdOf, gitRevParse,
      gitReset, gitFetch, gitClone, hgClone] at hcd hmk hgit hrev ⊢
  all_goals
    obtain ⟨rfl, rfl⟩ := hrev
    subst hgit
    first
      | exact absurd htrim ‹_›
      | simp [isNotExist]

/-- Witness of C1 on the example machine whose checkout sits at `deadbeef`. -/
theorem install_git_fast_path_witness :
    installResult atHead depA "/v" m0 = none ∧
      commands (installTrace atHead depA "/v" m0) = [gitRevParse] :=
  install_git_fast_path atHead depA "/v" m0 "deadbeef\n" (by decide) (by decide) (by decide)
    (by decide) (by decide) (by decide)

/-- C4. Local reset only: when the `.git` directory is found, the revision
read succeeds with a trimmed output different from `d.Rev`, and the first
`git reset --quiet --hard d.Rev` succeeds, `install` returns nil and the
commands it ran are exactly `[git rev-parse HEAD, git reset --quiet --hard d.Rev]`. -/
theorem install_local_reset_only (rt : Runtime σ) (d : dependency) (srcPath : String) (s : σ)
    (out : String) (_hvcs : d.Vcs = "git")
    (hgit : Event.stat (rt.pathJoin [srcPath, d.Path, ".git"]) none ∈ installTrace rt d srcPath s)
    (hrev : Event.combinedOutput gitRevParse out none ∈ installTrace rt d srcPath s)
    (_htrim : rt.trimSpace out ≠ d.Rev)
    (hreset : (outcomes (gitReset d.Rev) (installTrace rt d srcPath s)).head? = some none) :
    installResult rt d srcPath s = none ∧
      commands (installTrace rt d srcPath s) = [gitRevParse, gitReset d.Rev] := by
  have h := installRun_at rt d srcPath s
  generalize installResult rt d srcPath s = res at h ⊢
  generalize installTrace rt d srcPath s = tr at h hgit hrev hreset ⊢
  cases h <;>
    simp [entryEvents, statEvents, headEvents, bootEvents, gitRevParse,
      gitReset, gitFetch, gitClone, hgClone] at hgit hrev
  all_goals
    obtain ⟨rfl, rfl⟩ := hrev
    subst hgit
    simp [entryEvents, statEvents, headEvents, bootEvents, commands, cmdOf, gitRevParse,
      gitReset, gitFetch, gitClone, hgClone, outcomes, runOutcome, isNotExist] at hreset ⊢

/-- Witness of C4 on the example machine whose checkout sits at another revision. -/
theorem install_local_reset_only_witness :
    installResult behind depA "/v" m0 = none ∧
      commands (installTrace behind depA "/v" m0) = [gitRevParse, gitReset depA.Rev] :=
  install_local_reset_only behind depA "/v" m0 "0badcafe\n" (by decide) (by decide) (by decide)
    (by decide) (by decide)


/-- Counterexample to C2 as stated: for a dependency of kind `svn`, `install`
does change the working directory and create the directory, and when the
vendor directory cannot be entered it returns an error. -/
theorem unsupported_kind_not_noop :
    Event.chdir "/v" none ∈ installTrace quiet depSvn "/v" m0 ∧
      Event.mkdirAll "s" 0o755 none ∈ installTrace quiet depSvn "/v" m0 ∧
      installResult noSrc depSvn "/v" m0 = some "Failed to navigate to srcPath" := by
  decide

/-- C2, amended. For a dependency whose `Vcs` is neither `git` nor `hg`,
`install` runs no external command; it changes the working directory to
`srcPath` and, when that succeeds, calls `MkdirAll(d.Path, 0755)`, and nothing
else; it returns nil exactly when both succeed, and the error of the failed
call otherwise. -/
theorem unsupported_kind_steps (rt : Runtime σ) (d : dependency) (srcPath : String) (s : σ)
    (hgit : d.Vcs ≠ "git") (hhg : d.Vcs ≠ "hg") :
    commands (installTrace rt d srcPath s) = [] ∧
      ((∃ e, installTrace rt d srcPath s =
            [Event.log ("Installing " ++ d.Repo), Event.chdir srcPath (some e)] ∧
          installResult rt d srcPath s = some "Failed to navigate to srcPath") ∨
        (∃ e, installTrace rt d srcPath s =
            [Event.log ("Installing " ++ d.Repo), Event.chdir srcPath none,
              Event.mkdirAll d.Path 0o755 (some e)] ∧
          installResult rt d srcPath s = some ("Failed to mkdir " ++ d.Path)) ∨
        (installTrace rt d srcPath s =
            [Event.log ("Installing " ++ d.Repo), Event.chdir srcPath none,
              Event.mkdirAll d.Path 0o755 none] ∧
          installResult rt d srcPath s = none)) := by
  have h := installRun_at rt d srcPath s
  generalize installResult rt d srcPath s = res at h ⊢
  generalize installTrace rt d srcPath s = tr at h ⊢
  cases h <;> first
    | contradiction
    | simp [entryEvents, commands, cmdOf]

/-- Witness of the amended C2 on the example machine. -/
theorem unsupported_kind_steps_witness :
    commands (installTrace quiet depSvn "/v" m0) = [] ∧
      ((∃ e, installTrace quiet depSvn "/v" m0 =
            [Event.log ("Installing " ++ depSvn.Repo), Event.chdir "/v" (some e)] ∧
          installResult quiet depSvn "/v" m0 = some "Failed to navigate to srcPath") ∨
        (∃ e, installTrace quiet depSvn "/v" m0 =
            [Event.log ("Installing " ++ depSvn.Repo), Event.chdir "/v" none,
              Event.mkdirAll depSvn.Path 0o755 (some e)] ∧
          installResult quiet depSvn "/v" m0 = some ("Failed to mkdir " ++ depSvn.Path)) ∨
        (installTrace quiet depSvn "/v" m0 =
            [Event.log ("Installing " ++ depSvn.Repo), Event.chdir "/v" none,
              Event.mkdirAll depSvn.Path 0o755 none] ∧
          installResult quiet depSvn "/v" m0 = none)) :=
  unsupported_kind_steps quiet depSvn "/v" m0 (by decide) (by decide)

/-- Counterexample to C6 as stated: when the vendor directory cannot be
entered, or when a regular file stands at `srcPath/d.Path`, `install` of a
mercurial dependency runs no command at all and returns an error. -/
theorem mercurial_guard_failure_runs_nothing :
    (commands (installTrace noSrc depHg "/v" m0) = [] ∧
      installResult noSrc depHg "/v" m0 = some "Failed to navigate to srcPath") ∧
    (commands (installTrace blocked depHg "/v" m0) = [] ∧
      installResult blocked depHg "/v" m0 = some "Failed to mkdir h") := by
  decide

/-- C6, amended. For a dependency with `Vcs = "hg"`: when changing into
`srcPath` and creating `d.Path` succeed, `install` runs exactly one external
command, `hg clone --quiet --updaterev d.Rev d.Repo d.Path` (no git command),
and returns nil if and only if that clone succeeds; when one of the two fails,
`install` runs no external command and returns an error. -/
theorem install_hg_single_clone (rt : Runtime σ) (d : dependency) (srcPath : String) (s : σ)
    (hvcs : d.Vcs = "hg") :
    (Event.chdir srcPath none ∈ installTrace rt d srcPath s →
      Event.mkdirAll d.Path 0o755 none ∈ installTrace rt d srcPath s →
        commands (installTrace rt d srcPath s) = [hgClone d] ∧
        (installResult rt d srcPath s = none ↔
          Event.run (hgClone d) none ∈ installTrace rt d srcPath s)) ∧
    ((Event.chdir srcPath none ∉ installTrace rt d srcPath s ∨
        Event.mkdirAll d.Path 0o755 none ∉ installTrace rt d srcPath s) →
      commands (installTrace rt d srcPath s) = [] ∧ installResult rt d srcPath s ≠ none) := by
  have hne : d.Vcs ≠ "git" := by rw [hvcs]; decide
  have h := installRun_at rt d srcPath s
  generalize installResult rt d srcPath s = res at h ⊢
  generalize installTrace rt d srcPath s = tr at h ⊢
  cases h <;> first
    | contradiction
    | simp [entryEvents, commands, cmdOf]

/-- Witness of the amended C6 on the example machine. -/
theorem install_hg_single_clone_witness :
    commands (installTrace quiet depHg "/v" m0) = [hgClone depHg] ∧
      installResult quiet depHg "/v" m0 = none :=
  ⟨((install_hg_single_clone quiet depHg "/v" m0 (by decide)).1 (by decide) (by decide)).1,
    by decide⟩


/-- Counterexample to C3 as stated: the revision read succeeds and differs
from `d.Rev`, the first reset fails, and `git fetch` fails too; `install` then
returns the fetch error and never retries the reset. -/
theorem failed_fetch_stops_before_retry :
    Event.combinedOutput gitRevParse "0badcafe\n" none ∈ installTrace offline depA "/v" m0 ∧
      offline.trimSpace "0badcafe\n" ≠ depA.Rev ∧
      (outcomes (gitReset depA.Rev) (installTrace offline depA "/v" m0)).head? =
        some (some errExit) ∧
      commands (installTrace offline depA "/v" m0) =
        [gitRevParse, gitReset depA.Rev, gitFetch] ∧
      installResult offline depA "/v" m0 =
        some "Failed to fetch latest revisions%!(EXTRA *exec.ExitError=exit status 128)" := by
  decide

/-- C3, amended. For a git dependency whose revision read succeeds and
differs from `d.Rev`, if the first `git reset --quiet --hard d.Rev` fails,
`install` runs `git fetch` next.  If the fetch fails, `install` returns the
fetch error and runs nothing more.  If the fetch succeeds, `install` runs
exactly one more reset; it returns nil if that reset succeeds, and if it fails
it returns an error whose message contains `d.Rev` and the text of the cause.
Before the revision read there is at most the one clone of a bootstrap. -/
theorem install_fetch_then_retry (rt : Runtime σ) (d : dependency) (srcPath : String) (s : σ)
    (out : String) (e1 : GoError) (_hvcs : d.Vcs = "git")
    (hrev : Event.combinedOutput gitRevParse out none ∈ installTrace rt d srcPath s)
    (_htrim : rt.trimSpace out ≠ d.Rev)
    (hreset : (outcomes (gitReset d.Rev) (installTrace rt d srcPath s)).head? = some (some e1)) :
    ∃ pre f, (pre = [] ∨ pre = [gitClone d.Repo (rt.pathJoin [srcPath, d.Path])]) ∧
      outcomes gitFetch (installTrace rt d srcPath s) = [f] ∧
      (∀ e2, f = some e2 →
        commands (installTrace rt d srcPath s) =
          pre ++ [gitRevParse, gitReset d.Rev, gitFetch] ∧
        installResult rt d srcPath s = some ("Failed to fetch latest revisions" ++ fmtExtra e2)) ∧
      (f = none → ∃ r,
        commands (installTrace rt d srcPath s) =
          pre ++ [gitRevParse, gitReset d.Rev, gitFetch, gitReset d.Rev] ∧
        outcomes (gitReset d.Rev) (installTrace rt d srcPath s) = [some e1, r] ∧
        (r = none → installResult rt d srcPath s = none) ∧
        (∀ e3, r = some e3 → ∃ msg, installResult rt d srcPath s = some msg ∧
          contains msg d.Rev ∧ contains msg e3.msg)) := by
  have h := installRun_at rt d srcPath s
  generalize installResult rt d srcPath s = res at h ⊢
  generalize installTrace rt d srcPath s = tr at h hrev hreset ⊢
  cases h <;>
    simp [entryEvents, statEvents, headEvents, bootEvents, gitRevParse,
      gitReset, gitFetch, gitClone, hgClone] at hrev
  case upToDate hg st c1 out1 rev c2 ht =>
    obtain ⟨rfl, rfl⟩ := hrev
    cases hst : isNotExist st <;>
    simp [entryEvents, statEvents, headEvents, bootEvents, gitRevParse,
      gitReset, gitFetch, gitClone, outcomes, runOutcome, hst] at hreset
  case resetDone hg st c1 out1 rev c2 ht =>
    obtain ⟨rfl, rfl⟩ := hrev
    cases hst : isNotExist st <;>
    simp [entryEvents, statEvents, headEvents, bootEvents, gitRevParse,
      gitReset, gitFetch, gitClone, outcomes, runOutcome, hst] at hreset
  case fetchFailed hg st c1 out1 rev c2 ht e6 e7 =>
    obtain ⟨rfl, rfl⟩ := hrev
    refine ⟨if isNotExist st = true then [gitClone d.Repo (rt.pathJoin [srcPath, d.Path])]
      else [], some e7, ?_⟩
    cases hst : isNotExist st <;>
    simp [entryEvents, statEvents, headEvents, bootEvents, commands, cmdOf, gitRevParse,
      gitReset, gitFetch, gitClone, outcomes, runOutcome, hst] at hreset ⊢
  case retryDone hg st c1 out1 rev c2 ht e6 =>
    obtain ⟨rfl, rfl⟩ := hrev
    refine ⟨if isNotExist st = true then [gitClone d.Repo (rt.pathJoin [srcPath, d.Path])]
      else [], none, ?_⟩
    cases hst : isNotExist st <;>
    simp [entryEvents, statEvents, headEvents, bootEvents, commands, cmdOf, gitRevParse,
      gitReset, gitFetch, gitClone, outcomes, runOutcome, hst] at hreset ⊢ <;>
    exact ⟨none, ⟨hreset, rfl⟩, fun e3 h => by cases h⟩
  case retryFailed hg st c1 out1 rev c2 ht e6 e8 =>
    obtain ⟨rfl, rfl⟩ := hrev
    refine ⟨if isNotExist st = true then [gitClone d.Repo (rt.pathJoin [srcPath, d.Path])]
      else [], none, ?_⟩
    have hc1 : contains ("Failed to change to git rev " ++ d.Rev ++ ": " ++ e8.msg) d.Rev :=
      ⟨"Failed to change to git rev ".data, (": " ++ e8.msg).data, by
        simp [String.data_append]⟩
    have hc2 : contains ("Failed to change to git rev " ++ d.Rev ++ ": " ++ e8.msg) e8.msg :=
      ⟨("Failed to change to git rev " ++ d.Rev ++ ": ").data, [], by
        simp [String.data_append]⟩
    cases hst : isNotExist st <;>
    simp [entryEvents, statEvents, headEvents, bootEvents, commands, cmdOf, gitRevParse,
      gitReset, gitFetch, gitClone, outcomes, runOutcome, hst] at hreset ⊢ <;>
    exact ⟨some e8, ⟨hreset, rfl⟩, by simp, fun e3 h => by cases h; exact ⟨hc1, hc2⟩⟩


/-- Witness of the amended C3 on the example machine whose reset fails until
`git fetch` has run. -/
theorem install_fetch_then_retry_witness :
    ∃ pre f, (pre = [] ∨ pre = [gitClone depA.Repo (stale.pathJoin ["/v", depA.Path])]) ∧
      outcomes gitFetch (installTrace stale depA "/v" m0) = [f] ∧
      (∀ e2, f = some e2 →
        commands (installTrace stale depA "/v" m0) =
          pre ++ [gitRevParse, gitReset depA.Rev, gitFetch] ∧
        installResult stale depA "/v" m0 =
          some ("Failed to fetch latest revisions" ++ fmtExtra e2)) ∧
      (f = none → ∃ r,
        commands (installTrace stale depA "/v" m0) =
          pre ++ [gitRevParse, gitReset depA.Rev, gitFetch, gitReset depA.Rev] ∧
        outcomes (gitReset depA.Rev) (installTrace stale depA "/v" m0) = [some errExit, r] ∧
        (r = none → installResult stale depA "/v" m0 = none) ∧
        (∀ e3, r = some e3 → ∃ msg, installResult stale depA "/v" m0 = some msg ∧
          contains msg depA.Rev ∧ contains msg e3.msg)) :=
  install_fetch_then_retry stale depA "/v" m0 "0badcafe\n" errExit (by decide) (by decide)
    (by decide) (by decide)

/-- Counterexample to C7 as stated: in a fresh vendor directory with no
network the clone is run twice, once because `.git` is missing and once more
because the revision read fails. -/
theorem fresh_directory_clones_twice :
    Event.stat "/v/a/.git" (some errNotExist) ∈ installTrace unreachable depA "/v" m0 ∧
      (commands (installTrace unreachable depA "/v" m0)).count
        (gitClone depA.Repo "/v/a") = 2 := by
  decide

/-- C7, amended. For a git dependency whose `.git` directory `os.Stat` reports
missing (as on a fresh install), `install` runs
`git clone --quiet d.Repo srcPath/d.Path` once before it reads the revision,
and once more exactly when that read fails: the clone is run once when the
revision read succeeds or is not reached, and twice when it fails. -/
theorem install_fresh_clone_count (rt : Runtime σ) (d : dependency) (srcPath : String)
    (s : σ) (e : GoError) (_hvcs : d.Vcs = "git") (hne : e.notExist = true)
    (hst : Event.stat (rt.pathJoin [srcPath, d.Path, ".git"]) (some e) ∈
      installTrace rt d srcPath s) :
    ((∀ out e2, Event.combinedOutput gitRevParse out (some e2) ∉ installTrace rt d srcPath s) →
      (commands (installTrace rt d srcPath s)).count
        (gitClone d.Repo (rt.pathJoin [srcPath, d.Path])) = 1) ∧
    (∀ out e2, Event.combinedOutput gitRevParse out (some e2) ∈ installTrace rt d srcPath s →
      (commands (installTrace rt d srcPath s)).count
        (gitClone d.Repo (rt.pathJoin [srcPath, d.Path])) = 2) := by
  have h := installRun_at rt d srcPath s
  generalize installResult rt d srcPath s = res at h
  generalize installTrace rt d srcPath s = tr at h hst ⊢
  cases h <;>
    simp [entryEvents, statEvents, headEvents, bootEvents, gitRevParse,
      gitReset, gitFetch, gitClone, hgClone] at hst
  case enterFailed hg st c1 e4 =>
    subst hst
    simp [entryEvents, statEvents, headEvents, bootEvents, commands, cmdOf, gitRevParse,
      gitReset, gitFetch, gitClone, hgClone, isNotExist, hne, List.count_cons]
  case upToDate hg st c1 out1 rev c2 ht =>
    subst hst
    cases rev <;>
    simp [entryEvents, statEvents, headEvents, bootEvents, commands, cmdOf, gitRevParse,
      gitReset, gitFetch, gitClone, hgClone, isNotExist, hne, List.count_cons]
  case resetDone hg st c1 out1 rev c2 ht =>
    subst hst
    cases rev <;>
    simp [entryEvents, statEvents, headEvents, bootEvents, commands, cmdOf, gitRevParse,
      gitReset, gitFetch, gitClone, hgClone, isNotExist, hne, List.count_cons]
  case fetchFailed hg st c1 out1 rev c2 ht e6 e7 =>
    subst hst
    cases rev <;>
    simp [entryEvents, statEvents, headEvents, bootEvents, commands, cmdOf, gitRevParse,
      gitReset, gitFetch, gitClone, hgClone, isNotExist, hne, List.count_cons]
  case retryDone hg st c1 out1 rev c2 ht e6 =>
    subst hst
    cases rev <;>
    simp [entryEvents, statEvents, headEvents, bootEvents, commands, cmdOf, gitRevParse,
      gitReset, gitFetch, gitClone, hgClone, isNotExist, hne, List.count_cons]
  case retryFailed hg st c1 out1 rev c2 ht e6 e8 =>
    subst hst
    cases rev <;>
    simp [entryEvents, statEvents, headEvents, bootEvents, commands, cmdOf, gitRevParse,
      gitReset, gitFetch, gitClone, hgClone, isNotExist, hne, List.count_cons]


/-- Witness of the amended C7: on a fresh directory where the clone works the
clone is run once. -/
theorem install_fresh_clone_count_witness :
    ((∀ out e2, Event.combinedOutput gitRevParse out (some e2) ∉ installTrace fresh depA "/v" m0) →
      (commands (installTrace fresh depA "/v" m0)).count
        (gitClone depA.Repo (fresh.pathJoin ["/v", depA.Path])) = 1) ∧
    (∀ out e2, Event.combinedOutput gitRevParse out (some e2) ∈ installTrace fresh depA "/v" m0 →
      (commands (installTrace fresh depA "/v" m0)).count
        (gitClone depA.Repo (fresh.pathJoin ["/v", depA.Path])) = 2) :=
  install_fresh_clone_count fresh depA "/v" m0 errNotExist (by decide) (by decide) (by decide)

/-- C5, the behaviour of the code at the failing inputs.  On a machine without
`git` and for a manifest entry without `rev`, the revision read fails, both
bootstrap clones fail, and `install` returns nil.  On a repository with an
unreadable `HEAD`, the revision read fails, the bootstrap clone fails, the
reset succeeds, and `install` returns nil. -/
theorem bootstrap_error_dropped :
    (Event.combinedOutput gitRevParse "" (some errNotFound) ∈
        installTrace noGit depNoRev "/v" m0 ∧
      outcomes (gitClone depNoRev.Repo "/v/a") (installTrace noGit depNoRev "/v" m0) =
        [some errNotFound, some errNotFound] ∧
      installResult noGit depNoRev "/v" m0 = none) ∧
    (Event.combinedOutput gitRevParse "fatal: ambiguous argument HEAD\n" (some errExit) ∈
        installTrace brokenHead depA "/v" m0 ∧
      outcomes (gitClone depA.Repo "/v/a") (installTrace brokenHead depA "/v" m0) =
        [some errExit] ∧
      installResult brokenHead depA "/v" m0 = none) := by
  decide

/-- Appending to a message of twelve characters or more keeps its first twelve. -/
theorem head12_append (a b : String) (h : 12 ≤ a.data.length) :
    head12 (a ++ b) = head12 a := by
  simp [head12, String.data_append, List.take_append_of_le_length h]

/-- Counterexample to C9 as stated, in both of its parts.  When the vendor
directory cannot be entered, the message of the returned error contains
neither `d.Repo` nor `d.Rev`.  And for a dependency whose directory is named
`git rev deadbeef: exit status 128`, the failed change into that directory
and the failed reset after a fetch return the same message. -/
theorem error_message_counterexamples :
    (installResult noSrc depA "/v" m0 = some "Failed to navigate to srcPath" ∧
      ¬ contains "Failed to navigate to srcPath" depA.Repo ∧
      ¬ contains "Failed to navigate to srcPath" depA.Rev) ∧
    (installResult noEntry depOdd "/v" m0 =
        some "Failed to change to git rev deadbeef: exit status 128" ∧
      (installTrace noEntry depOdd "/v" m0).getLast? =
        some (Event.chdir depOdd.Path (some errDenied)) ∧
      installResult retryFails depOdd "/v" m0 =
        some "Failed to change to git rev deadbeef: exit status 128" ∧
      Event.run gitFetch none ∈ installTrace retryFails depOdd "/v" m0 ∧
      (installTrace retryFails depOdd "/v" m0).getLast? =
        some (Event.run (gitReset depOdd.Rev) (some errExit))) := by
  decide

/-- A message contains what is appended at its end. -/
theorem contains_append_right (a b : String) : contains (a ++ b) b :=
  ⟨a.data, [], by simp [String.data_append]⟩

/-- A message contains what stands between its first part and the cause. -/
theorem contains_append_mid (a b c m : String) : contains (a ++ b ++ c ++ m) b :=
  ⟨a.data, (c ++ m).data, by simp [String.data_append]⟩

/-- A message begins with its first part. -/
theorem startsWith_append (a b : String) : startsWith (a ++ b) a :=
  ⟨b.data, by simp [String.data_append]⟩

/-- A message that begins with a text of twelve characters or more has the
first twelve characters of that text. -/
theorem head12_of_startsWith (s pre : String) (h : startsWith s pre)
    (hl : 12 ≤ pre.data.length) : head12 s = head12 pre := by
  obtain ⟨t, ht⟩ := h
  simp [head12, ← ht, List.take_append_of_le_length hl]

/-- Two messages with the same first part are equal exactly when the rest is. -/
theorem append_left_cancel (a x y : String) : a ++ x = a ++ y ↔ x = y := by
  simp [String.ext_iff, String.data_append]

/-- The six error messages of `install` are pairwise different whatever the
paths, revisions and causes they are built from, with one exception: the
message of the change into `d.Path` equals that of the reset exactly when the
path is `git rev `, the revision, `: ` and the cause.  The message of the
fetch is any text that begins with `Failed to fetch latest revisions`. -/
theorem messages_distinct (p p2 q r m n f : String)
    (hf : startsWith f "Failed to fetch latest revisions") :
    ("Failed to navigate to srcPath" ≠ "Failed to mkdir " ++ p ∧
      "Failed to navigate to srcPath" ≠ "Failed to change to " ++ p2 ∧
      "Failed to navigate to srcPath" ≠ f ∧
      "Failed to navigate to srcPath" ≠ "Failed to change to git rev " ++ r ++ ": " ++ m ∧
      "Failed to navigate to srcPath" ≠ "Failed to clone hg " ++ q ++ ": " ++ n) ∧
    ("Failed to mkdir " ++ p ≠ "Failed to change to " ++ p2 ∧
      "Failed to mkdir " ++ p ≠ f ∧
      "Failed to mkdir " ++ p ≠ "Failed to change to git rev " ++ r ++ ": " ++ m ∧
      "Failed to mkdir " ++ p ≠ "Failed to clone hg " ++ q ++ ": " ++ n) ∧
    ("Failed to change to " ++ p2 ≠ f ∧
      "Failed to change to " ++ p2 ≠ "Failed to clone hg " ++ q ++ ": " ++ n ∧
      ("Failed to change to " ++ p2 = "Failed to change to git rev " ++ r ++ ": " ++ m ↔
        p2 = "git rev " ++ r ++ ": " ++ m)) ∧
    (f ≠ "Failed to change to git rev " ++ r ++ ": " ++ m ∧
      f ≠ "Failed to clone hg " ++ q ++ ": " ++ n) ∧
    "Failed to change to git rev " ++ r ++ ": " ++ m ≠ "Failed to clone hg " ++ q ++ ": " ++ n := by
  have h1 : head12 ("Failed to mkdir " ++ p) = head12 "Failed to mkdir " :=
    head12_append _ _ (by decide)
  have h2 : head12 f = head12 "Failed to fetch latest revisions" :=
    head12_of_startsWith _ _ hf (by decide)
  have h3 : head12 ("Failed to change to git rev " ++ r ++ ": " ++ m) =
      head12 "Failed to change to git rev " := by
    rw [String.append_assoc, String.append_assoc]
    exact head12_append _ _ (by decide)
  have h4 : head12 ("Failed to clone hg " ++ q ++ ": " ++ n) = head12 "Failed to clone hg " := by
    rw [String.append_assoc, String.append_assoc]
    exact head12_append _ _ (by decide)
  have h6 : head12 ("Failed to change to " ++ p2) = head12 "Failed to change to " :=
    head12_append _ _ (by decide)
  have h7 : "Failed to change to git rev " ++ r ++ ": " ++ m =
      "Failed to change to " ++ ("git rev " ++ r ++ ": " ++ m) := by
    have h8 : "Failed to change to git rev " = "Failed to change to " ++ "git rev " := by decide
    rw [h8]
    simp only [String.append_assoc]
  refine ⟨⟨?_, ?_, ?_, ?_, ?_⟩, ⟨?_, ?_, ?_, ?_⟩, ⟨?_, ?_, ?_⟩, ⟨?_, ?_⟩, ?_⟩
  case refine_12 => rw [h7, append_left_cancel]
  all_goals
    intro h
    have h5 := congrArg head12 h
    simp only [h1, h2, h3, h4, h6] at h5
    exact absurd h5 (by decide)

/-- C9, amended. Every error that `install` returns has one of six messages,
one for each call that can fail: the change into `srcPath`, the creation of
`d.Path`, the change into `d.Path`, the fetch, the reset after the fetch, and
the hg clone.  The message of the reset contains `d.Rev`; the messages of the
directory creation, of the change into `d.Path` and of the hg clone contain
`d.Path`; the message of the change into `srcPath` is a fixed text and that of
the fetch begins with `Failed to fetch latest revisions`, and no message is
built from `d.Repo`.  The six messages are pairwise different, except that
the message of the change into `d.Path` equals that of the reset after the
fetch exactly when `d.Path` is `git rev `, `d.Rev`, `: ` and the cause. -/
theorem install_error_messages (rt : Runtime σ) (d : dependency) (srcPath : String) (s : σ)
    (msg : String) (h : installResult rt d srcPath s = some msg) :
    ((∃ e, installTrace rt d srcPath s =
          [Event.log ("Installing " ++ d.Repo), Event.chdir srcPath (some e)] ∧
        msg = "Failed to navigate to srcPath") ∨
      (∃ e, Event.mkdirAll d.Path 0o755 (some e) ∈ installTrace rt d srcPath s ∧
        msg = "Failed to mkdir " ++ d.Path) ∨
      (∃ e, Event.chdir d.Path (some e) ∈ installTrace rt d srcPath s ∧ d.Vcs = "git" ∧
        msg = "Failed to change to " ++ d.Path) ∨
      (∃ e, Event.run gitFetch (some e) ∈ installTrace rt d srcPath s ∧
        startsWith msg "Failed to fetch latest revisions") ∨
      (∃ e, Event.run gitFetch none ∈ installTrace rt d srcPath s ∧
        Event.run (gitReset d.Rev) (some e) ∈ installTrace rt d srcPath s ∧
        msg = "Failed to change to git rev " ++ d.Rev ++ ": " ++ e.msg) ∨
      (∃ e, Event.run (hgClone d) (some e) ∈ installTrace rt d srcPath s ∧
        msg = "Failed to clone hg " ++ d.Path ++ ": " ++ e.msg)) ∧
    (contains msg d.Rev ∨ contains msg d.Path ∨ msg = "Failed to navigate to srcPath" ∨
      startsWith msg "Failed to fetch latest revisions") ∧
    (∀ (p p2 q r m n f : String), startsWith f "Failed to fetch latest revisions" →
      ("Failed to navigate to srcPath" ≠ "Failed to mkdir " ++ p ∧
        "Failed to navigate to srcPath" ≠ "Failed to change to " ++ p2 ∧
        "Failed to navigate to srcPath" ≠ f ∧
        "Failed to navigate to srcPath" ≠ "Failed to change to git rev " ++ r ++ ": " ++ m ∧
        "Failed to navigate to srcPath" ≠ "Failed to clone hg " ++ q ++ ": " ++ n) ∧
      ("Failed to mkdir " ++ p ≠ "Failed to change to " ++ p2 ∧
        "Failed to mkdir " ++ p ≠ f ∧
        "Failed to mkdir " ++ p ≠ "Failed to change to git rev " ++ r ++ ": " ++ m ∧
        "Failed to mkdir " ++ p ≠ "Failed to clone hg " ++ q ++ ": " ++ n) ∧
      ("Failed to change to " ++ p2 ≠ f ∧
        "Failed to change to " ++ p2 ≠ "Failed to clone hg " ++ q ++ ": " ++ n ∧
        ("Failed to change to " ++ p2 = "Failed to change to git rev " ++ r ++ ": " ++ m ↔
          p2 = "git rev " ++ r ++ ": " ++ m)) ∧
      (f ≠ "Failed to change to git rev " ++ r ++ ": " ++ m ∧
        f ≠ "Failed to clone hg " ++ q ++ ": " ++ n) ∧
      "Failed to change to git rev " ++ r ++ ": " ++ m ≠
        "Failed to clone hg " ++ q ++ ": " ++ n) := by
  refine ⟨?_, ?_, fun p p2 q r m n f hf => messages_distinct p p2 q r m n f hf⟩
  · have hr := installRun_at rt d srcPath s
    rw [h] at hr
    generalize installTrace rt d srcPath s = tr at hr ⊢
    generalize hres : some msg = res at hr
    cases hr <;> cases hres <;>
      simp [entryEvents, statEvents, headEvents, bootEvents, gitRevParse, gitReset,
        gitFetch, gitClone, hgClone, startsWith_append, *]
  · have hr := installRun_at rt d srcPath s
    rw [h] at hr
    generalize installTrace rt d srcPath s = tr at hr
    generalize hres : some msg = res at hr
    cases hr <;> cases hres <;> first
      | exact Or.inr (Or.inr (Or.inl rfl))
      | exact Or.inr (Or.inr (Or.inr (startsWith_append _ _)))
      | exact Or.inr (Or.inl (contains_append_right _ _))
      | exact Or.inr (Or.inl (contains_append_mid _ _ _ _))
      | exact Or.inl (contains_append_mid _ _ _ _)

/-- Witness of the amended C9 on the machine whose vendor directory cannot be entered. -/
theorem install_error_messages_witness :
    installResult noSrc depA "/v" m0 = some "Failed to navigate to srcPath" ∧
      (contains "Failed to navigate to srcPath" depA.Rev ∨
        contains "Failed to navigate to srcPath" depA.Path ∨
        "Failed to navigate to srcPath" = "Failed to navigate to srcPath" ∨
        startsWith "Failed to navigate to srcPath" "Failed to fetch latest revisions") :=
  ⟨by decide,
    (install_error_messages noSrc depA "/v" m0 "Failed to navigate to srcPath" (by decide)).2.1⟩

/-- No path of `install` prints on standard output. -/
theorem installRun_no_println {rt : Runtime σ} {d : dependency} {srcPath : String}
    {res : Option String} {ev : List Event} (h : InstallRun rt d srcPath res ev) (l : String) :
    Event.println l ∉ ev := by
  cases h <;> simp [entryEvents, statEvents, headEvents, bootEvents]

/-- A line on standard output after `install` was there before it. -/
theorem install_println (rt : Runtime σ) (d : dependency) (srcPath : String) (w : Sys σ)
    (l : String) (h : Event.println l ∈ (install rt d srcPath w).2.trace) :
    Event.println l ∈ w.trace := by
  obtain ⟨ev, h1, h2⟩ := install_run rt d srcPath w
  rw [h1, List.mem_append] at h
  exact h.resolve_right (installRun_no_println h2 l)

/-- The reference calls print nothing on standard output. -/
theorem installInOrder_println (rt : Runtime σ) (srcPath : String) (ds : List dependency) :
    ∀ (w : Sys σ) (l : String),
      Event.println l ∈ (installInOrder rt srcPath ds w).2.trace → Event.println l ∈ w.trace := by
  induction ds with
  | nil => intro w l h; simpa [installInOrder] using h
  | cons d ds ih =>
    intro w l h
    apply install_println rt d srcPath w l
    apply ih
    simpa [installInOrder] using h

/-- The reference calls on a list in two parts are those on the first part
followed by those on the second. -/
theorem installInOrder_append (rt : Runtime σ) (srcPath : String) (a b : List dependency) :
    ∀ w : Sys σ, (installInOrder rt srcPath (a ++ b) w).1 =
      (installInOrder rt srcPath a w).1 ++
        (installInOrder rt srcPath b (installInOrder rt srcPath a w).2).1 := by
  induction a with
  | nil => intro w; simp [installInOrder]
  | cons d ds ih =>
    intro w
    simp [installInOrder, ih]

/-- The loop over the manifest is the reference on a prefix of the manifest:
`install` is called on the dependencies `ds` at the head of the manifest, in
order, every call but the last returned nil, and the loop ends in one of three
ways: at the end of the manifest after calls that all returned nil, with
`log.Fatalf` on the error of the last call, or on a nil entry right after
calls that all returned nil. -/
theorem installDeps_spec (rt : Runtime σ) (srcPath : String)
    (deps : List (Option dependency)) :
    ∀ w0 : Sys σ, ∃ ds rs w, installInOrder rt srcPath ds w0 = (rs, w) ∧
      ds.map some <+: deps ∧
      (∀ r ∈ rs.dropLast, r = none) ∧
      ((ds.map some = deps ∧ (∀ r ∈ rs, r = none) ∧
          installDeps rt srcPath deps w0 = (LoopEnd.completed, w)) ∨
        (∃ d err, ds.getLast? = some d ∧ rs.getLast? = some (some err) ∧
          installDeps rt srcPath deps w0 =
            (LoopEnd.fatal, logFatal ("Failed to install " ++ d.Repo ++ ": " ++ err) w)) ∨
        ((∀ r ∈ rs, r = none) ∧ deps[ds.length]? = some none ∧
          installDeps rt srcPath deps w0 = (LoopEnd.crashed, nilDeref w))) := by
  induction deps with
  | nil =>
    intro w0
    exact ⟨[], [], w0, rfl, by simp, by simp, Or.inl ⟨rfl, by simp, rfl⟩⟩
  | cons p rest ih =>
    intro w0
    cases p with
    | none =>
      exact ⟨[], [], w0, rfl, by simp, by simp, Or.inr (Or.inr ⟨by simp, by simp, rfl⟩)⟩
    | some dep =>
      generalize hi : install rt dep srcPath w0 = x
      obtain ⟨r, w1⟩ := x
      cases r with
      | some err =>
        refine ⟨[dep], [some err], w1, by simp [installInOrder, hi], by simp, by simp,
          Or.inr (Or.inl ⟨dep, err, rfl, rfl, by simp [installDeps, hi]⟩)⟩
      | none =>
        obtain ⟨ds, rs, w, h0, h1, h2, h3⟩ := ih w1
        refine ⟨dep :: ds, none :: rs, w, by simp [installInOrder, hi, h0], ?_, ?_, ?_⟩
        · simpa using h1
        · intro c hc
          cases rs with
          | nil => simp at hc
          | cons c1 cs =>
            rw [List.dropLast_cons₂] at hc
            rcases List.mem_cons.1 hc with rfl | hc
            · rfl
            · exact h2 c hc
        · rcases h3 with ⟨h4, h5, h6⟩ | ⟨d, err, h4, h5, h6⟩ | ⟨h4, h5, h6⟩
          · refine Or.inl ⟨by simp [h4], ?_, by simp [installDeps, hi, h6]⟩
            intro c hc
            rcases List.mem_cons.1 hc with rfl | hc
            · rfl
            · exact h5 c hc
          · refine Or.inr (Or.inl ⟨d, err, ?_, ?_, by simp [installDeps, hi, h6]⟩)
            · cases ds with
              | nil => simp at h4
              | cons d1 ds1 => rw [List.getLast?_cons_cons]; exact h4
            · cases rs with
              | nil => simp at h5
              | cons r1 rs1 => rw [List.getLast?_cons_cons]; exact h5
          · refine Or.inr (Or.inr ⟨?_, by simpa using h5, by simp [installDeps, hi, h6]⟩)
            intro c hc
            rcases List.mem_cons.1 hc with rfl | hc
            · rfl
            · exact h4 c hc

/-- C8. Fail-fast in manifest order: for every manifest and every behaviour of
the environment, the run loop of `main` does what calling `install` on a
prefix `ds` of the manifest does, one dependency after the other in manifest
order, each call in the state the call before left; every call but the last
returned nil, so no call follows one that returned an error.  The run ends in
one of three ways: after the whole manifest, every call having returned nil,
with the confirmation line printed; with `log.Fatalf` on the error the last
call returned; or on a nil entry of the manifest, on which `install` panics
and returns nothing, after calls that all returned nil.  The confirmation
line "Dependencies written into _vendor/src" is printed if and only if
`install` was called on every entry of the manifest and every call returned nil. -/
theorem mainLoop_fail_fast (rt : Runtime σ) (srcPath : String)
    (deps : List (Option dependency)) (s : σ) :
    (∃ ds rs w, installInOrder rt srcPath ds ⟨s, []⟩ = (rs, w) ∧
      ds.map some <+: deps ∧
      (∀ r ∈ rs.dropLast, r = none) ∧
      ((ds.map some = deps ∧ (∀ r ∈ rs, r = none) ∧
          mainLoop rt srcPath deps ⟨s, []⟩ =
            (LoopEnd.completed, fmtPrintln confirmation w)) ∨
        (∃ d err, ds.getLast? = some d ∧ rs.getLast? = some (some err) ∧
          mainLoop rt srcPath deps ⟨s, []⟩ =
            (LoopEnd.fatal, logFatal ("Failed to install " ++ d.Repo ++ ": " ++ err) w)) ∨
        ((∀ r ∈ rs, r = none) ∧ deps[ds.length]? = some none ∧
          mainLoop rt srcPath deps ⟨s, []⟩ = (LoopEnd.crashed, nilDeref w)))) ∧
    (Event.println confirmation ∈ loopTrace rt srcPath deps s ↔
      ∃ ds, ds.map some = deps ∧
        ∀ r ∈ (installInOrder rt srcPath ds ⟨s, []⟩).1, r = none) := by
  obtain ⟨ds, rs, w, h0, h1, h2, h3⟩ := installDeps_spec rt srcPath deps ⟨s, []⟩
  have hp : ∀ l, Event.println l ∉ w.trace := by
    intro l hl
    have h := installInOrder_println rt srcPath ds ⟨s, []⟩ l
    rw [h0] at h
    simpa using h hl
  rcases h3 with ⟨h4, h5, h6⟩ | ⟨d, err, h4, h5, h6⟩ | ⟨h4, h5, h6⟩
  · refine ⟨⟨ds, rs, w, h0, h1, h2, Or.inl ⟨h4, h5, by simp [mainLoop, h6]⟩⟩, ?_⟩
    constructor
    · intro _
      exact ⟨ds, h4, by rw [h0]; exact h5⟩
    · intro _
      simp [loopTrace, mainLoop, h6, fmtPrintln]
  · refine ⟨⟨ds, rs, w, h0, h1, h2, Or.inr (Or.inl ⟨d, err, h4, h5, by simp [mainLoop, h6]⟩)⟩, ?_⟩
    constructor
    · intro hl
      simp [loopTrace, mainLoop, h6, logFatal, hp] at hl
    · rintro ⟨ds2, h7, h8⟩
      obtain ⟨t, ht⟩ := h1
      rw [← h7] at ht
      obtain ⟨l1, l2, h9, h10, -⟩ := List.map_eq_append_iff.1 ht.symm
      have h11 : l1 = ds := (List.map_injective_iff.2 (Option.some_injective _)) h10
      subst h11 h9
      have h12 := installInOrder_append rt srcPath l1 l2 ⟨s, []⟩
      rw [h0] at h12
      have h13 : some err ∈ (installInOrder rt srcPath (l1 ++ l2) ⟨s, []⟩).1 := by
        rw [h12]
        exact List.mem_append_left _ (List.mem_of_mem_getLast? h5)
      exact absurd (h8 _ h13) (by simp)
  · refine ⟨⟨ds, rs, w, h0, h1, h2, Or.inr (Or.inr ⟨h4, h5, by simp [mainLoop, h6]⟩)⟩, ?_⟩
    constructor
    · intro hl
      simp [loopTrace, mainLoop, h6, nilDeref, hp] at hl
    · rintro ⟨ds2, h7, _⟩
      rw [← h7] at h5
      simp at h5

/-- The run loop on three manifests: one whose second install fails, so that
the third is never installed and nothing is printed on standard output; one
that installs; and one with a nil entry, on which the process ends after the
first install. -/
theorem mainLoop_example :
    loopEnd hgDown "/v" [some depA, some depHg, some depB] m0 = LoopEnd.fatal ∧
      commands (loopTrace hgDown "/v" [some depA, some depHg, some depB] m0) =
        [gitRevParse, hgClone depHg] ∧
      Event.println confirmation ∉ loopTrace hgDown "/v" [some depA, some depHg, some depB] m0 ∧
      Event.println confirmation ∈ loopTrace atHead "/v" [some depA, some depHg, some depB] m0 ∧
      loopEnd atHead "/v" [some depA, none, some depB] m0 = LoopEnd.crashed ∧
      commands (loopTrace atHead "/v" [some depA, none, some depB] m0) = [gitRevParse] := by
  decide

/-- The example machine is a file store for `.env`. -/
theorem quiet_fileStore : FileStore quiet Machine.env := by
  constructor
  · intro s
    simp only [quiet]
    split <;> rfl
  · intro s hs
    have h : s.env ≠ none := by
      intro h
      simp [h] at hs
    simp [quiet, h, isNotExist]
  · intro s data perm _
    simp [quiet]

/-- The read-only machine is a file store for `.env`. -/
theorem readOnly_fileStore : FileStore readOnly Machine.env := by
  constructor
  · intro s
    simp only [readOnly, quiet]
    split <;> rfl
  · intro s hs
    have h : s.env ≠ none := by
      intro h
      simp [h] at hs
    simp [readOnly, quiet, h, isNotExist]
  · intro s data perm h
    simp [readOnly] at h

/-- Counterexample to C10 as stated: in a read-only directory `.env` does not
exist, `os.Stat` says so, and `writeEnv` does not create it: the write is
refused and `log.Fatal` ends the process. -/
theorem refused_write_creates_nothing :
    FileStore readOnly Machine.env ∧ m0.env = none ∧
      isNotExist (readOnly.stat ".env" m0).1 = true ∧
      (envAfter readOnly m0).env ≠ some envLine ∧ envFatal readOnly m0 = true :=
  ⟨readOnly_fileStore, by decide, by decide, by decide, by decide⟩

/-- C10, amended. Over an environment whose `Stat` and `WriteFile` act on the
file `.env`: if `os.Stat` reports that `.env` does not exist and the write
succeeds, `writeEnv` creates it with exactly the content
`export GOPATH=$(pwd)/_vendor:$GOPATH`, and if the write fails `log.Fatal` ends
the process; if `.env` already exists `writeEnv` leaves its content unchanged
whatever that content is; hence from every state in which `writeEnv` returns,
running it a second time leaves the content of `.env` as the first run left it. -/
theorem writeEnv_write_once (rt : Runtime σ) (content : σ → Option String)
    (hfs : FileStore rt content) (s : σ) :
    (isNotExist (rt.stat ".env" s).1 = true →
      (rt.writeFile ".env" envLine 0o755 s).1 = none →
        content (envAfter rt s) = some envLine ∧ envFatal rt s = false) ∧
    (isNotExist (rt.stat ".env" s).1 = true →
      (rt.writeFile ".env" envLine 0o755 s).1 ≠ none → envFatal rt s = true) ∧
    (∀ c, content s = some c → content (envAfter rt s) = some c ∧ envFatal rt s = false) ∧
    (envFatal rt s = false →
      content (envAfter rt (envAfter rt s)) = content (envAfter rt s)) := by
  have key : ∀ t : σ,
      (isNotExist (rt.stat ".env" t).1 = false → envAfter rt t = t ∧ envFatal rt t = false) ∧
      (isNotExist (rt.stat ".env" t).1 = true →
        envAfter rt t = (rt.writeFile ".env" envLine 0o755 t).2 ∧
        (envFatal rt t = false ↔ (rt.writeFile ".env" envLine 0o755 t).1 = none)) := by
    intro t
    have h1 := hfs.stat_state t
    generalize hst : rt.stat ".env" t = x at h1
    obtain ⟨r, t1⟩ := x
    simp only [] at h1
    subst h1
    cases r with
    | none => simp [envAfter, envFatal, writeEnv, osStat, hst, logPrint, isNotExist]
    | some e =>
      cases hne : e.notExist
      · simp [envAfter, envFatal, writeEnv, osStat, hst, isNotExist, hne]
      · generalize hwr : rt.writeFile ".env" envLine 0o755 t1 = y
        obtain ⟨r2, t2⟩ := y
        cases r2 <;>
          simp [envAfter, envFatal, writeEnv, osStat, ioWriteFile, hst, hwr, isNotExist, hne,
            logFatal, fmtPrintln]
  refine ⟨?_, ?_, ?_, ?_⟩
  · intro h1 h2
    obtain ⟨h3, h4⟩ := (key s).2 h1
    exact ⟨by rw [h3]; exact hfs.write_done s envLine 0o755 h2, h4.2 h2⟩
  · intro h1 h2
    obtain ⟨_, h4⟩ := (key s).2 h1
    cases hf : envFatal rt s
    · exact absurd (h4.1 hf) h2
    · rfl
  · intro c hc
    have h1 := hfs.stat_found s (by simp [hc])
    obtain ⟨h3, h4⟩ := (key s).1 h1
    exact ⟨by rw [h3]; exact hc, h4⟩
  · intro hf
    cases h1 : isNotExist (rt.stat ".env" s).1
    · have h3 := ((key s).1 h1).1
      rw [h3, h3]
    · obtain ⟨h3, h4⟩ := (key s).2 h1
      have h5 := hfs.write_done s envLine 0o755 (h4.1 hf)
      rw [← h3] at h5
      have h6 := hfs.stat_found (envAfter rt s) (by simp [h5])
      rw [((key (envAfter rt s)).1 h6).1]

/-- Witness of the amended C10 on the example machine, from the state without `.env`. -/
theorem writeEnv_write_once_witness :
    FileStore quiet Machine.env ∧
    (envAfter quiet m0).env = some envLine ∧
    (envAfter quiet (envAfter quiet m0)).env = (envAfter quiet m0).env :=
  ⟨quiet_fileStore,
    ((writeEnv_write_once quiet Machine.env quiet_fileStore m0).1 (by decide) (by decide)).1,
    (writeEnv_write_once quiet Machine.env quiet_fileStore m0).2.2.2 (by decide)⟩

end Govendor
